import Mathlib

/-!
Verification of the Study-guide-RAG pipeline scripts.

The Python sources are shallowly embedded: strings become `List Char`,
machine-independent Python ints become `Nat`, external API calls
(Gemini embedding / generation, ChromaDB queries, `json.loads`) become
function parameters or `Option`-valued outcomes, and `sys.exit(n)`
becomes `Except.error n`.  Unicode-sensitive Python predicates
(`str.strip`, `str.isalnum`, `str.splitlines`) are modelled on their
ASCII behaviour, which is all the inputs below exercise.
-/

/-- Whitespace characters recognised by Python's `str.strip()` /
`\s` (ASCII range). -/
def pyWhitespace (c : Char) : Bool :=
  c = ' ' || c = '\t' || c = '\n' || c = '\x0b' || c = '\x0c' || c = '\r'

/-- Python `str.strip()` (ASCII whitespace): drop whitespace from both ends. -/
def pyStrip (s : List Char) : List Char :=
  ((s.dropWhile pyWhitespace).reverse.dropWhile pyWhitespace).reverse

/-- Helper for `splitlines`: accumulate the current line (reversed). -/
def splitLinesAux : List Char → List Char → List (List Char)
  | [], acc => if acc.isEmpty then [] else [acc.reverse]
  | '\r' :: '\n' :: rest, acc => acc.reverse :: splitLinesAux rest []
  | '\r' :: rest, acc => acc.reverse :: splitLinesAux rest []
  | '\n' :: rest, acc => acc.reverse :: splitLinesAux rest []
  | c :: rest, acc => splitLinesAux rest (c :: acc)

/-- Python `str.splitlines()` restricted to the line endings `\n`, `\r`,
`\r\n` (the ones occurring in this pipeline's data). -/
def splitlines (s : List Char) : List (List Char) :=
  splitLinesAux s []

/-- Python's substring test `needle in hay`. -/
def py_in (needle hay : List Char) : Bool :=
  (List.range (hay.length + 1)).any (fun i => needle.isPrefixOf (hay.drop i))

/-- Index of the first occurrence of `needle` in `hay` (Python `str.find`
when the result is interpreted through `Option`). -/
def find_sub (needle hay : List Char) : Option Nat :=
  (List.range (hay.length + 1)).find? (fun i => needle.isPrefixOf (hay.drop i))

/-! ## indexer_vision.py -/

/-- `CHUNK_SIZE` from `indexer_vision.py`. -/
def CHUNK_SIZE : Nat := 1000

/-- `CHUNK_OVERLAP` from `indexer_vision.py`. -/
def CHUNK_OVERLAP : Nat := 200

/-- The `while start_index < len(text)` loop of
`recursive_character_text_splitter` (`indexer_vision.py` lines 50-65).
`fuel` is a termination device only; every caller passes enough fuel for
the loop to run to completion (with the script's parameters
`chunk_size = 1000 > chunk_overlap = 200` the start index grows by 800
each iteration).  Python's `text[start:end]` is `(text.drop start).take
(end - start)`. -/
def splitLoop (text : List Char) (chunk_size chunk_overlap : Nat) :
    Nat → Nat → List (List Char)
  | 0, _ => []
  | fuel + 1, start_index =>
    if start_index < text.length then
      let end_index := min (start_index + chunk_size) text.length
      let chunk := (text.drop start_index).take (end_index - start_index)
      let next_start := start_index + (chunk_size - chunk_overlap)
      if end_index ≤ next_start then
        if next_start < text.length then
          chunk :: splitLoop text chunk_size chunk_overlap fuel end_index
        else
          [chunk]
      else
        chunk :: splitLoop text chunk_size chunk_overlap fuel next_start
    else
      []

/-- `recursive_character_text_splitter` (`indexer_vision.py` lines 45-68):
texts of length at most `chunk_size` are returned as a single chunk
unchanged; longer texts go through the window loop and chunks that are
empty after `strip()` are filtered out. -/
def recursive_character_text_splitter (text : List Char)
    (chunk_size : Nat := CHUNK_SIZE) (chunk_overlap : Nat := CHUNK_OVERLAP) :
    List (List Char) :=
  if text.length ≤ chunk_size then [text]
  else
    (splitLoop text chunk_size chunk_overlap (text.length + 1) 0).filter
      (fun chunk => !(pyStrip chunk).isEmpty)

/-- Spec-side operation for claim C1: keep the first chunk whole and drop
the leading `CHUNK_OVERLAP` characters of every later chunk. -/
def overlapTrim : List (List Char) → List (List Char)
  | [] => []
  | c :: rest => c :: rest.map (fun x => x.drop CHUNK_OVERLAP)

/-- `parse_vision_markdown_page`: the main text is everything before the
first H4 marker `\n#### ` (regex `(.*?)(?=\n#### |\Z)` with DOTALL),
stripped. -/
def mainTextOf (page_content : List Char) : List Char :=
  pyStrip (page_content.take
    ((find_sub (("\n#### ").toList) page_content).getD page_content.length))

/-- Case-insensitive prefix test (the heading regexes carry
`re.IGNORECASE`). -/
def ciPrefixOf (needle hay : List Char) : Bool :=
  (needle.map Char.toLower).isPrefixOf (hay.map Char.toLower)

/-- Position just after the last `\n` inside the run of whitespace `run`
(backtracking behaviour of the regex piece `\s*\n`). -/
def lastNewlineIdx (run : List Char) : Option Nat :=
  ((List.range run.length).filter (fun i => decide (run[i]? = some '\n'))).getLast?

/-- Does the heading pattern `\n#### <heading>\s*\n` match at index `i` of
`s`?  Returns the index where the captured content starts. -/
def matchHeadingAt (heading s : List Char) (i : Nat) : Option Nat :=
  if ("\n#### ").toList.isPrefixOf (s.drop i) && ciPrefixOf heading (s.drop (i + 6)) then
    let pos := i + 6 + heading.length
    let run := (s.drop pos).takeWhile pyWhitespace
    match lastNewlineIdx run with
    | some k => some (pos + k + 1)
    | none => none
  else
    none

/-- Content captured for one heading of `parse_vision_markdown_page`
(regex `\n#### <heading>\s*\n(.*?)(?=\n#### |\Z)`, leftmost match,
then `.strip()`); `[]` when the heading is absent. -/
def headingContent (heading s : List Char) : List Char :=
  match (List.range (s.length + 1)).findSome? (fun i => matchHeadingAt heading s i) with
  | none => []
  | some contentStart =>
    let tail := s.drop contentStart
    pyStrip (tail.take ((find_sub (("\n#### ").toList) tail).getD tail.length))

/-- Result dictionary of `parse_vision_markdown_page`
(`indexer_vision.py` lines 71-106). -/
structure PageData where
  main_text : List Char
  visual_descriptions : List Char
  table_descriptions : List Char
  equation_descriptions : List Char
deriving DecidableEq

/-- `parse_vision_markdown_page` (`indexer_vision.py` lines 71-106). -/
def parse_vision_markdown_page (page_content : List Char) : PageData :=
  { main_text := mainTextOf page_content
    visual_descriptions := headingContent (("Visual Elements Description").toList) page_content
    table_descriptions := headingContent (("Table Content").toList) page_content
    equation_descriptions := headingContent (("Key Equations").toList) page_content }

/-- `is_initial_chunk` from `process_md_file_async` line 147:
`pdf_name in page_content.splitlines()[0] if page_content else False`. -/
def is_initial_chunk (pdf_name page_content : List Char) : Bool :=
  if page_content.isEmpty then false
  else py_in pdf_name ((splitlines page_content).headD [])

/-- The page loop of `process_md_file_async` (`indexer_vision.py` lines
140-166): walks the segments produced by the page-marker split, carrying
`current_page_num`, and collects
`(main_text, page_num_for_meta, parsed)` for every non-blank segment
whose parsed main text is non-empty. -/
def page_data_list (pdf_name : List Char) :
    List (List Char) → Nat → List (List Char × Nat × PageData)
  | [], _ => []
  | page_content :: rest, current_page_num =>
    if (pyStrip page_content).isEmpty then
      page_data_list pdf_name rest current_page_num
    else
      let isInit := is_initial_chunk pdf_name page_content
      let next_page_num := if isInit then current_page_num else current_page_num + 1
      let page_num_for_meta := if 0 < next_page_num then next_page_num else 1
      let parsed := parse_vision_markdown_page page_content
      if parsed.main_text.isEmpty then
        page_data_list pdf_name rest next_page_num
      else
        (parsed.main_text, page_num_for_meta, parsed) :: page_data_list pdf_name rest next_page_num

/-- Metadata attached to each chunk (`indexer_vision.py` lines 176-182). -/
structure Metadata where
  source_file : List Char
  source_page : Nat
  visual_descriptions : List Char
  table_descriptions : List Char
  equation_descriptions : List Char
deriving DecidableEq

/-- The chunking loop body (`indexer_vision.py` lines 172-183): chunk
each collected page text and pair every chunk with its metadata. -/
def chunks_from_entries (pdf_name : List Char)
    (entries : List (List Char × Nat × PageData)) : List (List Char × Metadata) :=
  entries.flatMap (fun e =>
    (recursive_character_text_splitter e.1).map (fun chunk_text =>
      (chunk_text,
        { source_file := pdf_name
          source_page := e.2.1
          visual_descriptions := e.2.2.visual_descriptions
          table_descriptions := e.2.2.table_descriptions
          equation_descriptions := e.2.2.equation_descriptions })))

/-- `all_chunks_for_file` zipped with `all_metadata_for_file`
(`indexer_vision.py` lines 168-183). -/
def all_chunks_with_meta (pdf_name : List Char) (pages : List (List Char)) :
    List (List Char × Metadata) :=
  chunks_from_entries pdf_name (page_data_list pdf_name pages 0)

/-- `CHROMA_BATCH_SIZE` from `indexer_vision.py`. -/
def CHROMA_BATCH_SIZE : Nat := 100

/-- An embedding vector returned by the embedding API (modelled). -/
abbrev Embedding := List Int

/-- Helper for `batchesOf`; the fuel is the length of the list, enough
because every step consumes at least the head element. -/
def batchesOfAux (bs : Nat) : Nat → List α → List (List α)
  | 0, _ => []
  | _, [] => []
  | fuel + 1, x :: xs => (x :: xs.take (bs - 1)) :: batchesOfAux bs fuel (xs.drop (bs - 1))

/-- The batching loop `for i in range(0, len(l), bs): l[i:i+bs]`
(`indexer_vision.py` lines 189-191), for `bs > 0`. -/
def batchesOf (bs : Nat) (l : List α) : List (List α) :=
  batchesOfAux bs l.length l

/-- The result-combining loop of `process_md_file_async` (lines 196-203):
concatenate the per-batch embeddings in order, failing (`none`) as soon
as one batch failed. -/
def combine_embeddings : List (Option (List Embedding)) → Option (List Embedding)
  | [] => some []
  | none :: _ => none
  | some batch :: rest => (combine_embeddings rest).map (fun tail => batch ++ tail)

/-- `process_md_file_async` (lines 185-218) for one file, with the
embedding API modelled by `embedFn` (`none` = the batch's
`embed_batch` call raised and returned `None`).  A produced record is
`(embedding, document, metadata)`; the random `uuid4` id is omitted. -/
def process_md_file (embedFn : List (List Char) → Option (List Embedding))
    (pdf_name : List Char) (pages : List (List Char)) :
    List (Embedding × List Char × Metadata) :=
  let cm := all_chunks_with_meta pdf_name pages
  if cm.isEmpty then []
  else
    match combine_embeddings ((batchesOf CHROMA_BATCH_SIZE (cm.map Prod.fst)).map embedFn) with
    | none => []
    | some embs =>
      if embs.length = cm.length then embs.zip cm
      else []

/-- `main_async` result collection (lines 262-278): the records of all
files in order. -/
def indexRun (embedFn : List (List Char) → Option (List Embedding))
    (files : List (List Char × List (List Char))) :
    List (Embedding × List Char × Metadata) :=
  (files.map (fun f => process_md_file embedFn f.1 f.2)).flatten

/-! ## rag_exam_solver.py -/

/-- `embed_query` (`rag_exam_solver.py` lines 53-66): the outcome of the
`genai.embed_content` call is `apiResult` (`none` = the call raised);
on failure the function prints and calls `sys.exit(1)`, modelled as
`Except.error 1`. -/
def embed_query (apiResult : Option Embedding) : Except Nat Embedding :=
  match apiResult with
  | some emb => Except.ok emb
  | none => Except.error 1

/-- Character sanitization of `save_output` line 188:
`c if c.isalnum() else "_"` (Python's Unicode `isalnum` modelled on
ASCII). -/
def sanitizeChar (c : Char) : Char :=
  if c.isAlphanum then c else '_'

/-- Python `str.strip("_")`: drop underscores from both ends. -/
def strip_underscores (l : List Char) : List Char :=
  ((l.dropWhile (fun c => c = '_')).reverse.dropWhile (fun c => c = '_')).reverse

/-- `safe_filename` derivation of `save_output`
(`rag_exam_solver.py` lines 188-190):
`"".join(c if c.isalnum() else "_" for c in query[:50]).strip("_")`,
falling back to `"rag_output"` when empty. -/
def safe_filename (query : List Char) : List Char :=
  let base := strip_underscores ((query.take 50).map sanitizeChar)
  if base.isEmpty then ("rag_output").toList else base

/-! ## create_exam_guide.py -/

/-- The query results object as far as the control flow inspects it:
`results['ids'][0]` (emptiness decides the no-context branch). -/
structure QueryResults where
  ids : List (List Char)
deriving DecidableEq

/-- `embed_query_async` (`create_exam_guide.py` lines 61-73): returns the
embedding on success and `None` when the API call raised; with the call
outcome as input this is the identity. -/
def embed_query_async (apiResult : Option Embedding) : Option Embedding :=
  apiResult

/-- `query_chroma` (`create_exam_guide.py` lines 75-90): `None` input
short-circuits to `None`; otherwise the collection query's outcome
(`none` = it raised) is returned. -/
def guide_query_chroma (queryFn : Embedding → Option QueryResults)
    (query_embedding : Option Embedding) : Option QueryResults :=
  match query_embedding with
  | none => none
  | some emb => queryFn emb

/-- The sentinel returned by `format_retrieved_context` when there are no
results (`create_exam_guide.py` line 96). -/
def no_context_msg : List Char :=
  ("No relevant context found in the local knowledge base.").toList

/-- `format_retrieved_context` (`create_exam_guide.py` lines 92-117).
The body that renders actual results formats floating-point distances,
so it is abstracted as `fmtBody`; the claims only concern the sentinel
branches. -/
def format_retrieved_context (fmtBody : QueryResults → List Char)
    (results : Option QueryResults) : List Char :=
  match results with
  | none => no_context_msg
  | some r => if r.ids.isEmpty then no_context_msg else fmtBody r

/-- First fixed part of the prompt of `construct_augmented_rag_prompt`. -/
def augPromptPart1 : List Char :=
  ("You are an expert teaching assistant creating a comprehensive study guide. Your task is to explain the following exam topic thoroughly, combining information from provided local documents with your own general knowledge.\n\nExam Topic:\n\"\"\"\n").toList

/-- Middle fixed part of the prompt of `construct_augmented_rag_prompt`. -/
def augPromptPart2 : List Char :=
  ("\n\"\"\"\n\nRelevant Context Retrieved from Local Study Materials:\n\"\"\"\n").toList

/-- Final fixed part (the numbered instructions) of the prompt of
`construct_augmented_rag_prompt`. -/
def augPromptPart3 : List Char :=
  ("\n\"\"\"\n\nInstructions:\n1.  **Analyze the Exam Topic:** Understand the core concepts required.\n2.  **Explain using Local Context:** First, synthesize a clear explanation based *ONLY* on the \"Relevant Context Retrieved from Local Study Materials\" provided above.\n    *   Explicitly reference the source file and page number (e.g., \"According to Lecture 3, Page 5...\") when using this information.\n    *   Incorporate any relevant visual, table, or equation descriptions found in the local context.\n    *   Use clear Markdown formatting (headings, lists, bolding, code blocks if applicable).\n3.  **Identify Gaps:** After explaining based on local context, explicitly state if the provided local context is insufficient to fully cover the topic or if certain aspects are missing. Mention what these gaps are. If the context *is* sufficient, state that.\n4.  **Augment with General Knowledge:** If you identified gaps OR if you believe your general knowledge can provide significant valuable additions (like broader context, alternative approaches, real-world examples, or deeper insights not present in the local documents), add a section titled \"### Additional Information (General Knowledge)\".\n    *   In this section, use your own knowledge base to fill the identified gaps or provide the supplementary information.\n    *   **Crucially, make it clear that this additional information comes from your general knowledge and not the specific local documents.**\n5.  **Final Formatting:** Ensure the entire explanation for the topic is well-structured, uses excellent Markdown formatting, and is easy to read and understand. Start the explanation for the topic with a Level 2 Markdown heading (e.g., `## Topic Name`).\n\nProvide the complete, well-formatted explanation for the exam topic below:\n").toList

/-- `construct_augmented_rag_prompt` (`create_exam_guide.py` lines
136-164). -/
def construct_augmented_rag_prompt (exam_topic formatted_context : List Char) : List Char :=
  augPromptPart1 ++ exam_topic ++ augPromptPart2 ++ formatted_context ++ augPromptPart3

/-- The placeholder produced by the `error_task` dummy coroutine for a
topic whose embedding failed (`create_exam_guide.py` line 258). -/
def error_section (topic : List Char) : List Char :=
  ("## ").toList ++ topic ++ ("\n\n*Error: Could not embed this topic query. Skipping.*\n\n").toList

/-- One iteration of the preparation loop of `main_async`
(`create_exam_guide.py` lines 237-247): embed the topic; on failure mark
the topic with `none`, otherwise build its augmented prompt. -/
def topic_data_entry (embedFn : List Char → Option Embedding)
    (queryFn : Embedding → Option QueryResults)
    (fmtBody : QueryResults → List Char) (topic : List Char) :
    List Char × Option (List Char) :=
  match embed_query_async (embedFn topic) with
  | none => (topic, none)
  | some emb =>
    (topic, some (construct_augmented_rag_prompt topic
      (format_retrieved_context fmtBody (guide_query_chroma queryFn (some emb)))))

/-- The task created for one prepared topic (lines 255-261): the error
placeholder when the prompt is `none`, otherwise the generation call,
whose outcome is `genFn` (it returns error text rather than raising). -/
def sectionFor (genFn : List Char → List Char) (td : List Char × Option (List Char)) :
    List Char :=
  match td.2 with
  | none => error_section td.1
  | some prompt => genFn prompt

/-- Completion model for `asyncio.gather`: tasks finish in the order
given by `order`; each completion stores task `i`'s result in slot `i`
of the result array. -/
def gatherFill (f : Nat → α) (n : Nat) (order : List Nat) : List (Option α) :=
  order.foldl (fun acc i => acc.set i (some (f i))) (List.replicate n none)

/-- The list `await asyncio.gather(*tasks)` hands back: the filled slots
read out in task order. -/
def gatherResult (dflt : α) (f : Nat → α) (n : Nat) (order : List Nat) : List α :=
  (gatherFill f n order).map (fun o => o.getD dflt)

/-! ## structure_exam_topics.py -/

/-- JSON values, as returned by `json.loads` (numbers modelled as
integers; no claim depends on numeric payloads). -/
inductive Json where
  | null : Json
  | bool : Bool → Json
  | num : Int → Json
  | str : List Char → Json
  | arr : List Json → Json
  | obj : List (List Char × Json) → Json

/-- Index of the last occurrence of `c` in `hay` (Python `str.rfind`
through `Option`). -/
def rfind_char (c : Char) (hay : List Char) : Option Nat :=
  ((List.range hay.length).filter (fun i => decide (hay[i]? = some c))).getLast?

/-- The no-fence fallback of `structure_topics_with_llm` (lines 117-122):
strip the raw text, then cut from the first `[` to the last `]` when
both exist. -/
def bracketFallback (raw_text : List Char) : List Char :=
  let json_string := pyStrip raw_text
  match find_sub ['['] json_string, rfind_char ']' json_string with
  | some first_bracket, some last_bracket =>
    (json_string.drop first_bracket).take (last_bracket + 1 - first_bracket)
  | _, _ => json_string

/-- The JSON-string selection of `structure_topics_with_llm` (lines
111-122): the stripped contents of the first ```` ```json ... ``` ````
fence when one is closed, else the bracket fallback.  (If the first
`\x7b`-free fence opener has no closing fence then no later one has
either, since every later opener itself contains the closing
backticks.) -/
def extract_json_string (raw_text : List Char) : List Char :=
  match find_sub (("```json").toList) raw_text with
  | some i =>
    let rest := raw_text.drop (i + 7)
    match find_sub (("```").toList) rest with
    | some k => pyStrip (rest.take k)
    | none => bracketFallback raw_text
  | none => bracketFallback raw_text

/-- `structure_topics_with_llm` parsing tail (lines 125-146), with
`json.loads` as the parameter `json_loads` (`none` = `JSONDecodeError`):
`None` unless the parse succeeds and yields a list. -/
def structure_topics_with_llm (json_loads : List Char → Option Json)
    (raw_text : List Char) : Option (List Json) :=
  match json_loads (extract_json_string raw_text) with
  | some (Json.arr l) => some l
  | some _ => none
  | none => none

/-- The `__main__` decision of `structure_exam_topics.py` (lines 186-194):
`if structured_topics:` saves (with a warning flag when the count differs
from the input count) and an empty or missing list exits with code 1.
The `Bool` in the result records whether the count-mismatch warning was
printed. -/
def structureMain (json_loads : List Char → Option Json) (raw_text : List Char)
    (original_count : Nat) : Except Nat (List Json × Bool) :=
  match structure_topics_with_llm json_loads raw_text with
  | some structured =>
    if structured.isEmpty then Except.error 1
    else Except.ok (structured, decide (structured.length ≠ original_count))
  | none => Except.error 1

/-- Models Python `json.loads` on the concrete strings appearing in the
theorems below: `[]` parses to the empty array, `["B", "A"]` to a
two-element string array, anything else is a decode error.  This agrees
with the real `json.loads` on those inputs. -/
def json_loads_demo : List Char → Option Json := fun s =>
  if s = ("[]").toList then some (Json.arr [])
  else if s = ("[\"B\", \"A\"]").toList then
    some (Json.arr [Json.str ['B'], Json.str ['A']])
  else none

/-! ## extract_exam_topics.py -/

/-- `extract_topics_from_summary` response processing
(`extract_exam_topics.py` line 52): split the reply into lines, strip
each, drop blanks; an API error (`none`) yields `[]`. -/
def extract_topics_from_summary (reply : Option (List Char)) : List (List Char) :=
  match reply with
  | none => []
  | some text => ((splitlines text).map pyStrip).filter (fun l => !l.isEmpty)

/-- `unique_topics.update(extracted)`: set union, modelled as a list
without duplicates extended only with unseen strings. -/
def add_unique (acc : List (List Char)) (ts : List (List Char)) : List (List Char) :=
  ts.foldl (fun a t => if t ∈ a then a else a ++ [t]) acc

/-- One iteration of the file loop of `extract_exam_topics.py` (lines
96-123): skip blank files before calling the LLM; add the extracted
topics to the set when any were extracted. -/
def unique_topics_step (acc : List (List Char)) (file : List Char × Option (List Char)) :
    List (List Char) :=
  if (pyStrip file.1).isEmpty then acc
  else
    let extracted := extract_topics_from_summary file.2
    if extracted.isEmpty then acc else add_unique acc extracted

/-- The accumulation loop of `extract_exam_topics.py` (lines 96-123):
one `(content, reply)` pair per `.md` file, where `reply` is the LLM
response (`none` = the call raised). -/
def unique_topics (files : List (List Char × Option (List Char))) : List (List Char) :=
  files.foldl unique_topics_step []

/-- Lexicographic comparison of strings by code point (Python `<=` on
`str`), as used by `sorted`. -/
def lexLe : List Char → List Char → Bool
  | [], _ => true
  | _ :: _, [] => false
  | a :: s, b :: t =>
    if a.toNat < b.toNat then true else if b.toNat < a.toNat then false else lexLe s t

/-- `lexLe` as a decidable relation, for use with the sorting API. -/
def lexLeP (a b : List Char) : Prop := lexLe a b = true

instance lexLeP_decidable : DecidableRel lexLeP :=
  fun a b => inferInstanceAs (Decidable (lexLe a b = true))

/-- `sorted(list(unique_topics))` (line 135).  Python's `sorted` is a
stable comparison sort; since the accumulated list has no duplicates and
the code-point order is antisymmetric, any sorting algorithm produces
the same list, modelled here by insertion sort. -/
def sorted_unique (u : List (List Char)) : List (List Char) :=
  u.insertionSort lexLeP

/-- The three save branches of `extract_exam_topics.py` (lines 140-153). -/
inductive SaveFormat where
  | jsonArray : SaveFormat
  | textLines : SaveFormat
  | textLinesWithWarning : SaveFormat
deriving DecidableEq

/-- Format selection by lower-cased output extension (lines 140-153):
`.json` saves a JSON array, `.txt` newline-delimited text, anything else
newline-delimited text after a warning. -/
def chooseFormat (ext : List Char) : SaveFormat :=
  let e := ext.map Char.toLower
  if e = (".json").toList then SaveFormat.jsonArray
  else if e = (".txt").toList then SaveFormat.textLines
  else SaveFormat.textLinesWithWarning

/-- End of `__main__` (lines 125-155): no output file when the
accumulated set is empty (`sys.exit(0)` without writing), otherwise the
chosen format together with the sorted unique topic list. -/
def extractMain (files : List (List Char × Option (List Char))) (ext : List Char) :
    Option (SaveFormat × List (List Char)) :=
  let u := unique_topics files
  if u.isEmpty then none
  else some (chooseFormat ext, sorted_unique u)

/-! ## Theorems about the splitter (claims C1 and C4) -/

/-- One non-terminal unfolding of the window loop: while at least 800
characters remain beyond the window start plus overlap, the loop emits
the current window and advances by 800. -/
theorem splitLoop_cons (text : List Char) (fuel start : Nat)
    (hs : start < text.length)
    (hlt : start + (1000 - 200) < min (start + 1000) text.length) :
    splitLoop text 1000 200 (fuel + 1) start
      = (text.drop start).take (min (start + 1000) text.length - start)
        :: splitLoop text 1000 200 fuel (start + (1000 - 200)) := by
  simp only [splitLoop]
  rw [if_pos hs, if_neg (by omega)]

/-- Terminal unfolding of the window loop: once the text ends within the
current window's overlap-advance, the current window is the last chunk. -/
theorem splitLoop_last (text : List Char) (fuel start : Nat)
    (hs : start < text.length)
    (hle : min (start + 1000) text.length ≤ start + (1000 - 200)) :
    splitLoop text 1000 200 (fuel + 1) start
      = [(text.drop start).take (min (start + 1000) text.length - start)] := by
  simp only [splitLoop]
  rw [if_pos hs, if_pos (by omega), if_neg (by omega)]

/-- Chunk count of the window loop: one chunk per 800-character stride. -/
theorem splitLoop_length (text : List Char) (fuel start : Nat)
    (hs : start < text.length) (hf : text.length - start ≤ fuel) :
    (splitLoop text 1000 200 fuel start).length
      = (text.length - start + 799) / 800 := by
  induction fuel generalizing start with
  | zero => omega
  | succ f ih =>
    by_cases hc : min (start + 1000) text.length ≤ start + (1000 - 200)
    · rw [splitLoop_last text f start hs hc]
      simp only [List.length_cons, List.length_nil]
      omega
    · rw [splitLoop_cons text f start hs (by omega)]
      rw [List.length_cons, ih (start + (1000 - 200)) (by omega) (by omega)]
      omega

/-- Dropping the 200-character overlap from every chunk of the window
loop and concatenating recovers the text from `start + 200` on. -/
theorem splitLoop_drop_flatten (text : List Char) (fuel start : Nat)
    (hs : start < text.length) (hf : text.length - start ≤ fuel) :
    ((splitLoop text 1000 200 fuel start).map (fun c => c.drop 200)).flatten
      = text.drop (start + 200) := by
  induction fuel generalizing start with
  | zero => omega
  | succ f ih =>
    by_cases hc : min (start + 1000) text.length ≤ start + (1000 - 200)
    · rw [splitLoop_last text f start hs hc]
      simp only [List.map_cons, List.map_nil, List.flatten_cons, List.flatten_nil,
        List.append_nil]
      have he : min (start + 1000) text.length = text.length := by omega
      rw [he, List.drop_take, List.drop_drop]
      have hlen : (text.drop (start + 200)).length = text.length - (start + 200) := by
        simp
      exact List.take_of_length_le (by omega)
    · rw [splitLoop_cons text f start hs (by omega)]
      simp only [List.map_cons, List.flatten_cons]
      rw [ih (start + (1000 - 200)) (by omega) (by omega)]
      rw [List.drop_take, List.drop_drop]
      rw [show start + (1000 - 200) + 200 = start + 1000 from by omega]
      have hlen : (text.drop (start + 200)).length = text.length - (start + 200) := by
        simp
      by_cases hbig : start + 1000 ≤ text.length
      · have hk : min (start + 1000) text.length - start - 200 = 800 := by omega
        have hdd : text.drop (start + 1000) = (text.drop (start + 200)).drop 800 := by
          rw [List.drop_drop, show start + 200 + 800 = start + 1000 from by omega]
        rw [hk, hdd, List.take_append_drop]
      · have hk : min (start + 1000) text.length - start - 200
            = (text.drop (start + 200)).length := by omega
        have hnil : text.drop (start + 1000) = [] :=
          List.drop_eq_nil_of_le (by omega)
        rw [hk, List.take_length, hnil, List.append_nil]

/-- The whitespace filter at the end of the splitter keeps every chunk
that strips to something non-empty. -/
theorem filter_strip_eq_self (chunks : List (List Char))
    (hw : ∀ c ∈ chunks, pyStrip c ≠ []) :
    chunks.filter (fun chunk => !(pyStrip chunk).isEmpty) = chunks :=
  List.filter_eq_self.mpr (fun c hc => by
    simp only [Bool.not_eq_true', List.isEmpty_eq_false]
    exact hw c hc)

/-- C4 (amended): for every input of length at most the window size the
splitter returns exactly one chunk, the input itself verbatim — no
trimming is applied and the empty-after-trim filter does not run on this
path. -/
theorem C4_short_input (text : List Char) (h : text.length ≤ 1000) :
    recursive_character_text_splitter text = [text] := by
  have h1 : text.length ≤ CHUNK_SIZE := h
  simp [recursive_character_text_splitter, h1]

/-- Witness for C4: the one-character input `" "` is returned as is. -/
theorem C4_short_input_witness :
    ([' '] : List Char).length ≤ 1000 ∧
    recursive_character_text_splitter [' '] = [[' ']] :=
  ⟨by decide, C4_short_input [' '] (by decide)⟩

/-- Counterexample to C4 as stated: on the whitespace-only input `" "`
the splitter returns the chunk `" "`, which is empty after trimming yet
present in the output, and the output differs from the trimmed input in
a singleton list. -/
theorem C4_counterexample :
    recursive_character_text_splitter [' '] = [[' ']] ∧
    pyStrip [' '] = ([] : List Char) ∧
    recursive_character_text_splitter [' '] ≠ [pyStrip [' ']] :=
  ⟨by decide, by decide, by decide⟩

/-- C1 (amended): for a text longer than the window whose window chunks
all survive the whitespace filter, concatenating the overlap-trimmed
chunks reconstructs the text exactly, and the chunk count is
`⌈len / (window − overlap)⌉ = (len + 799) / 800` — not
`⌈(len − overlap) / (window − overlap)⌉` as the claim stated. -/
theorem C1_long_input (text : List Char) (h : 1000 < text.length)
    (hw : ∀ c ∈ splitLoop text 1000 200 (text.length + 1) 0, pyStrip c ≠ []) :
    (overlapTrim (recursive_character_text_splitter text)).flatten = text ∧
    (recursive_character_text_splitter text).length = (text.length + 799) / 800 := by
  have hne : ¬ text.length ≤ 1000 := by omega
  have hsplit : recursive_character_text_splitter text
      = splitLoop text 1000 200 (text.length + 1) 0 := by
    simp only [recursive_character_text_splitter, CHUNK_SIZE, CHUNK_OVERLAP]
    rw [if_neg hne]
    exact filter_strip_eq_self _ hw
  constructor
  · rw [hsplit]
    have hmin : min (0 + 1000) text.length = 1000 := by omega
    rw [splitLoop_cons text text.length 0 (by omega) (by omega), hmin]
    simp only [List.drop_zero, Nat.sub_zero, overlapTrim, CHUNK_OVERLAP, List.flatten_cons]
    rw [splitLoop_drop_flatten text text.length (0 + (1000 - 200)) (by omega) (by omega)]
    rw [show 0 + (1000 - 200) + 200 = 1000 from by omega]
    exact List.take_append_drop 1000 text
  · rw [hsplit, splitLoop_length text (text.length + 1) 0 (by omega) (by omega)]
    omega

set_option maxRecDepth 10000 in
/-- Witness for C1 (amended) at a 1001-character non-whitespace text. -/
theorem C1_long_input_witness :
    1000 < (List.replicate 1001 'a').length ∧
    ((overlapTrim (recursive_character_text_splitter (List.replicate 1001 'a'))).flatten
        = List.replicate 1001 'a' ∧
      (recursive_character_text_splitter (List.replicate 1001 'a')).length
        = ((List.replicate 1001 'a').length + 799) / 800) :=
  ⟨by decide, C1_long_input (List.replicate 1001 'a') (by decide) (by decide)⟩

set_option maxRecDepth 10000 in
/-- Counterexample to C1 as stated: a 1601-character text yields 3
chunks, while the claimed formula `⌈(len − overlap) / (window −
overlap)⌉` predicts 2. -/
theorem C1_counterexample :
    (recursive_character_text_splitter (List.replicate 1601 'a')).length = 3 ∧
    (1601 - 200 + 799) / 800 = 2 ∧ (3 : Nat) ≠ 2 :=
  ⟨by decide, by decide, by decide⟩

/-! ## Theorems about the page loop (claims C2 and C10) -/

/-- Every page number stored in the metadata is at least 1. -/
theorem page_data_list_page_pos (pdf_name : List Char) :
    ∀ (pages : List (List Char)) (c : Nat),
      ∀ e ∈ page_data_list pdf_name pages c, 1 ≤ e.2.1 := by
  intro pages
  induction pages with
  | nil =>
    intro c e he
    simp [page_data_list] at he
  | cons p rest ih =>
    intro c e he
    simp only [page_data_list] at he
    by_cases hb : (pyStrip p).isEmpty
    · rw [if_pos hb] at he
      exact ih c e he
    · rw [if_neg hb] at he
      by_cases hm : (parse_vision_markdown_page p).main_text.isEmpty
      · rw [if_pos hm] at he
        exact ih _ e he
      · rw [if_neg hm] at he
        rcases List.mem_cons.mp he with h | h
        · rw [h]
          simp only []
          split_ifs <;> omega
        · exact ih _ e h

/-- When every segment is non-blank, fails the title heuristic, and has
non-empty main text, the assigned page numbers from counter `c` are
`c+1, c+2, ...`. -/
theorem page_data_list_pages_of_content (pdf_name : List Char) :
    ∀ (pages : List (List Char)) (c : Nat),
      (∀ p ∈ pages, (pyStrip p).isEmpty = false ∧
          is_initial_chunk pdf_name p = false ∧
          (parse_vision_markdown_page p).main_text.isEmpty = false) →
      (page_data_list pdf_name pages c).map (fun e => e.2.1)
        = (List.range pages.length).map (fun i => c + i + 1) := by
  intro pages
  induction pages with
  | nil =>
    intro c h
    simp [page_data_list]
  | cons p rest ih =>
    intro c h
    obtain ⟨hb, hi, hm⟩ := h p (by simp)
    have hr : ∀ q ∈ rest, (pyStrip q).isEmpty = false ∧
        is_initial_chunk pdf_name q = false ∧
        (parse_vision_markdown_page q).main_text.isEmpty = false :=
      fun q hq => h q (List.mem_cons_of_mem _ hq)
    simp only [page_data_list, hb, hi, hm, Bool.false_eq_true, if_false]
    simp only [Nat.zero_lt_succ, if_true, List.map_cons]
    rw [ih (c + 1) hr]
    simp only [List.length_cons]
    rw [List.range_succ_eq_map]
    simp only [List.map_cons, List.map_map]
    refine congrArg₂ List.cons (by omega) ?_
    refine List.map_congr_left ?_
    intro i hi2
    simp only [Function.comp_apply]
    omega

/-- C2 (amended): the title heuristic is applied to every non-blank
segment, not only the first; when the first segment is the title and no
later segment's first line contains the inferred name, the k-th
subsequent content segment receives page number k, and every assigned
page number is at least 1. -/
theorem C2_page_numbering (pdf_name p0 : List Char) (rest : List (List Char))
    (h0b : (pyStrip p0).isEmpty = false)
    (h0i : is_initial_chunk pdf_name p0 = true)
    (h0m : (parse_vision_markdown_page p0).main_text.isEmpty = false)
    (hrest : ∀ p ∈ rest, (pyStrip p).isEmpty = false ∧
        is_initial_chunk pdf_name p = false ∧
        (parse_vision_markdown_page p).main_text.isEmpty = false) :
    (page_data_list pdf_name (p0 :: rest) 0).map (fun e => e.2.1)
      = 1 :: (List.range rest.length).map (fun i => i + 1) ∧
    ∀ e ∈ page_data_list pdf_name (p0 :: rest) 0, 1 ≤ e.2.1 := by
  constructor
  · simp only [page_data_list, h0b, h0i, h0m, Bool.false_eq_true, if_false, if_true]
    simp only [Nat.lt_irrefl, List.map_cons]
    rw [page_data_list_pages_of_content pdf_name rest 0 hrest]
    refine congrArg₂ List.cons rfl ?_
    refine List.map_congr_left ?_
    intro i hi2
    omega
  · exact page_data_list_page_pos pdf_name (p0 :: rest) 0

/-- Witness for C2 (amended): a titled first segment followed by two
content segments receives page numbers 1, 1, 2. -/
theorem C2_page_numbering_witness :
    (page_data_list (("doc").toList)
        [("doc intro").toList, ("alpha").toList, ("beta").toList] 0).map (fun e => e.2.1)
      = [1, 1, 2] := by
  have h := C2_page_numbering (("doc").toList) (("doc intro").toList)
      [("alpha").toList, ("beta").toList] (by decide) (by decide) (by decide) (by decide)
  rw [h.1]
  decide

/-- Counterexample to C2 as stated: with inferred name `doc`, a later
segment whose first line contains `doc` is also treated as a title
segment and does not increment the page counter, so the assigned pages
are 1, 1, 1, 2 where the claim predicts 1, 1, 2, 3. -/
theorem C2_counterexample :
    (page_data_list (("doc").toList)
        [("doc notes").toList, ("alpha").toList, ("doc again\nmore").toList,
          ("beta").toList] 0).map (fun e => e.2.1)
      = [1, 1, 1, 2] ∧
    ([1, 1, 1, 2] : List Nat) ≠ [1, 1, 2, 3] :=
  ⟨by decide, by decide⟩

/-- C10: a non-blank, non-title page segment whose parsed main text is
empty contributes nothing to the collected page data (hence no chunks
and no vector records, its description fields included), while still
consuming one page-counter increment. -/
theorem C10_empty_main_page (pdf_name page_content : List Char) (rest : List (List Char))
    (hb : (pyStrip page_content).isEmpty = false)
    (ht : is_initial_chunk pdf_name page_content = false)
    (hm : (parse_vision_markdown_page page_content).main_text = []) :
    (∀ current_page_num : Nat,
      page_data_list pdf_name (page_content :: rest) current_page_num
        = page_data_list pdf_name rest (current_page_num + 1)) ∧
    all_chunks_with_meta pdf_name (page_content :: rest)
      = chunks_from_entries pdf_name (page_data_list pdf_name rest 1) := by
  have hm2 : (parse_vision_markdown_page page_content).main_text.isEmpty = true := by
    simp [hm]
  have hstep : ∀ c : Nat, page_data_list pdf_name (page_content :: rest) c
      = page_data_list pdf_name rest (c + 1) := by
    intro c
    simp [page_data_list, hb, ht, hm2]
  exact ⟨hstep, by simp only [all_chunks_with_meta, hstep 0]⟩

/-- Witness for C10: a page holding only the three description headings
is skipped entirely while the following page still gets page number 2. -/
theorem C10_empty_main_page_witness :
    page_data_list (("doc").toList)
        [("\n#### Visual Elements Description\nA diagram.\n#### Table Content\nNone.\n#### Key Equations\nE = m c^2").toList,
          ("plain body").toList] 0
      = page_data_list (("doc").toList) [("plain body").toList] 1 :=
  (C10_empty_main_page (("doc").toList)
      (("\n#### Visual Elements Description\nA diagram.\n#### Table Content\nNone.\n#### Key Equations\nE = m c^2").toList)
      [("plain body").toList] (by decide) (by decide) (by decide)).1 0

/-! ## Theorems about file-level indexing (claim C5) -/

/-- The combining loop fails exactly when some batch failed. -/
theorem combine_embeddings_eq_none (rs : List (Option (List Embedding))) :
    combine_embeddings rs = none ↔ none ∈ rs := by
  induction rs with
  | nil => simp [combine_embeddings]
  | cons r rest ih =>
    cases r with
    | none => simp [combine_embeddings]
    | some b => simp [combine_embeddings, Option.map_eq_none', ih]

/-- C5: if any embedding batch for a file fails, or the combined
embedding count differs from the file's chunk count, the file
contributes zero records, and the run's records are exactly those of the
other files. -/
theorem C5_failed_file (embedFn : List (List Char) → Option (List Embedding))
    (pdf_name : List Char) (pages : List (List Char))
    (pre post : List (List Char × List (List Char)))
    (h : (∃ b ∈ batchesOf CHROMA_BATCH_SIZE ((all_chunks_with_meta pdf_name pages).map Prod.fst),
            embedFn b = none) ∨
         (∃ es, combine_embeddings
              ((batchesOf CHROMA_BATCH_SIZE
                  ((all_chunks_with_meta pdf_name pages).map Prod.fst)).map embedFn)
              = some es ∧
            es.length ≠ (all_chunks_with_meta pdf_name pages).length)) :
    process_md_file embedFn pdf_name pages = [] ∧
    indexRun embedFn (pre ++ (pdf_name, pages) :: post)
      = indexRun embedFn pre ++ indexRun embedFn post := by
  have hzero : process_md_file embedFn pdf_name pages = [] := by
    simp only [process_md_file]
    by_cases hcm : (all_chunks_with_meta pdf_name pages).isEmpty
    · rw [if_pos hcm]
    · rw [if_neg hcm]
      rcases h with ⟨b, hb, hbn⟩ | ⟨es, hes, hne⟩
      · have hnone : combine_embeddings
            ((batchesOf CHROMA_BATCH_SIZE
                ((all_chunks_with_meta pdf_name pages).map Prod.fst)).map embedFn) = none :=
          (combine_embeddings_eq_none _).mpr (List.mem_map.mpr ⟨b, hb, hbn⟩)
        rw [hnone]
      · rw [hes]
        simp only [if_neg hne]
  refine ⟨hzero, ?_⟩
  simp only [indexRun, List.map_append, List.map_cons, List.flatten_append, List.flatten_cons]
  rw [hzero, List.nil_append]

/-- Witness for C5: an embedding function that fails on any batch whose
chunk mentions `x` discards the first file while the sibling file is
unaffected. -/
theorem C5_failed_file_witness :
    process_md_file
        (fun b => if b.any (fun c => c.contains 'x') then none
          else some (b.map (fun c => [(c.length : Int)])))
        (("bad").toList) [("x topic text").toList] = [] ∧
    indexRun
        (fun b => if b.any (fun c => c.contains 'x') then none
          else some (b.map (fun c => [(c.length : Int)])))
        ([] ++ ((("bad").toList), [("x topic text").toList])
          :: [((("good").toList), [("hello world").toList])])
      = indexRun
          (fun b => if b.any (fun c => c.contains 'x') then none
            else some (b.map (fun c => [(c.length : Int)])))
          []
        ++ indexRun
            (fun b => if b.any (fun c => c.contains 'x') then none
              else some (b.map (fun c => [(c.length : Int)])))
            [((("good").toList), [("hello world").toList])] :=
  C5_failed_file _ _ _ _ _ (Or.inl (by decide))

/-! ## Theorems about embedding-failure handling (claim C3) -/

/-- C3 (amended): in the async guide generator an embedding failure is
absorbed — the topic is marked with `none`, its section becomes the
error placeholder, a `None` embedding short-circuits the Chroma query,
and missing results format to the no-context sentinel — while the
single-query solver's `embed_query` terminates the process with exit
code 1 instead of returning a sentinel. -/
theorem C3_embed_failure (embedFn : List Char → Option Embedding)
    (queryFn : Embedding → Option QueryResults)
    (fmtBody : QueryResults → List Char)
    (genFn : List Char → List Char) (topic : List Char)
    (hfail : embedFn topic = none) :
    topic_data_entry embedFn queryFn fmtBody topic = (topic, none) ∧
    sectionFor genFn (topic_data_entry embedFn queryFn fmtBody topic)
      = error_section topic ∧
    guide_query_chroma queryFn none = none ∧
    format_retrieved_context fmtBody none = no_context_msg ∧
    embed_query none = Except.error 1 := by
  have h1 : topic_data_entry embedFn queryFn fmtBody topic = (topic, none) := by
    simp [topic_data_entry, embed_query_async, hfail]
  exact ⟨h1, by rw [h1]; rfl, rfl, rfl, rfl⟩

/-- Witness for C3 (amended) with an embedding function that always
fails. -/
theorem C3_embed_failure_witness :
    topic_data_entry (fun _ => none) (fun _ => none) (fun _ => [])
        (("demo topic").toList)
      = ((("demo topic").toList), none) ∧
    sectionFor (fun p => p)
        (topic_data_entry (fun _ => none) (fun _ => none) (fun _ => [])
          (("demo topic").toList))
      = error_section (("demo topic").toList) ∧
    guide_query_chroma (fun _ => none) none = none ∧
    format_retrieved_context (fun _ => []) none = no_context_msg ∧
    embed_query none = Except.error 1 :=
  C3_embed_failure _ _ _ _ _ rfl

/-- Counterexample to C3 as stated: the single-query solver's
`embed_query` exits the process with status 1 on an embedding failure
rather than returning a no-context sentinel. -/
theorem C3_counterexample : embed_query none = Except.error 1 := rfl

/-! ## Theorems about the output filename (claim C8) -/

/-- C8 (amended): the saved filename is the query with every
non-alphanumeric character replaced by an underscore, truncated to 50
characters, then stripped of leading and trailing underscores, with the
fixed default used exactly when that result is empty. -/
theorem C8_filename (query : List Char) :
    safe_filename query
      = (if (strip_underscores ((query.map sanitizeChar).take 50)).isEmpty
          then ("rag_output").toList
          else strip_underscores ((query.map sanitizeChar).take 50)) := by
  simp only [safe_filename, List.map_take]

/-- Counterexample to C8 as stated: for the query `!` the claimed
derivation (replace, then truncate) yields `_`, but the code strips the
underscores and falls back to the default name `rag_output`. -/
theorem C8_counterexample :
    safe_filename ['!'] = ("rag_output").toList ∧
    (['!'].map sanitizeChar).take 50 = ['_'] ∧
    ("rag_output").toList ≠ ['_'] :=
  ⟨by decide, by decide, by decide⟩

/-! ## Theorems about the topic structurer (claim C6) -/

/-- C6 (amended): the run fails (exit 1, no output file) exactly when the
reply does not parse to a JSON array or parses to the empty array; a
parsed non-empty array is always written, with the warning flag set
exactly when its length differs from the input count. -/
theorem C6_structuring (json_loads : List Char → Option Json) (raw_text : List Char)
    (original_count : Nat) :
    (structureMain json_loads raw_text original_count = Except.error 1 ↔
      (structure_topics_with_llm json_loads raw_text = none ∨
        structure_topics_with_llm json_loads raw_text = some [])) ∧
    (∀ l, structure_topics_with_llm json_loads raw_text = some l → l ≠ [] →
      structureMain json_loads raw_text original_count
        = Except.ok (l, decide (l.length ≠ original_count))) := by
  constructor
  · unfold structureMain
    cases hst : structure_topics_with_llm json_loads raw_text with
    | none => simp
    | some l =>
      cases l with
      | nil => simp
      | cons x xs => simp
  · intro l hl hne
    have hne2 : l.isEmpty = false := by simpa using hne
    unfold structureMain
    rw [hl]
    simp [hne2]

/-- Witness for C6 (amended): a reordered two-element array inside a
fenced block is parsed and saved, with the count-mismatch warning
emitted against an input count of 3. -/
theorem C6_structuring_witness :
    structure_topics_with_llm json_loads_demo (("```json\n[\"B\", \"A\"]\n```").toList)
      = some [Json.str ['B'], Json.str ['A']] ∧
    structureMain json_loads_demo (("```json\n[\"B\", \"A\"]\n```").toList) 3
      = Except.ok ([Json.str ['B'], Json.str ['A']], true) := by
  refine ⟨rfl, ?_⟩
  have h := (C6_structuring json_loads_demo (("```json\n[\"B\", \"A\"]\n```").toList) 3).2
      [Json.str ['B'], Json.str ['A']] rfl (by simp)
  exact h

/-- Counterexample to C6 as stated: the reply `[]` parses to a JSON
array, yet the run writes no file and exits with code 1, because
`if structured_topics:` treats the empty list as a failure. -/
theorem C6_counterexample :
    structure_topics_with_llm json_loads_demo (("```json\n[]\n```").toList) = some [] ∧
    structureMain json_loads_demo (("```json\n[]\n```").toList) 3 = Except.error 1 :=
  ⟨rfl, rfl⟩

/-! ## Theorems about the topic extractor output (claim C7) -/

/-- The code-point order on strings is total. -/
theorem lexLe_total (s t : List Char) : (lexLe s t || lexLe t s) = true := by
  induction s generalizing t with
  | nil => simp [lexLe]
  | cons a s ih =>
    cases t with
    | nil => simp [lexLe]
    | cons b t =>
      simp only [lexLe]
      by_cases h1 : a.toNat < b.toNat
      · simp [h1]
      · by_cases h2 : b.toNat < a.toNat
        · simp [h1, h2]
        · simp [h1, h2, ih t]

/-- The code-point order on strings is transitive. -/
theorem lexLe_trans (a b c : List Char) (hab : lexLe a b = true)
    (hbc : lexLe b c = true) : lexLe a c = true := by
  induction a generalizing b c with
  | nil => simp [lexLe]
  | cons x s ih =>
    cases b with
    | nil => simp [lexLe] at hab
    | cons y t =>
      cases c with
      | nil => simp [lexLe] at hbc
      | cons z u =>
        simp only [lexLe] at hab hbc ⊢
        split_ifs at hab hbc ⊢ <;>
          first
            | rfl
            | omega
            | exact ih t u hab hbc

/-- Membership in the deduplicating accumulator. -/
theorem add_unique_mem (x : List Char) :
    ∀ (ts acc : List (List Char)), x ∈ add_unique acc ts ↔ x ∈ acc ∨ x ∈ ts := by
  intro ts
  induction ts with
  | nil =>
    intro acc
    simp [add_unique]
  | cons t ts ih =>
    intro acc
    have hstep : add_unique acc (t :: ts)
        = add_unique (if t ∈ acc then acc else acc ++ [t]) ts := rfl
    rw [hstep, ih]
    by_cases hmem : t ∈ acc
    · rw [if_pos hmem]
      by_cases hx : x = t
      · subst hx
        simp [hmem]
      · simp [List.mem_cons, hx]
    · rw [if_neg hmem]
      simp only [List.mem_append, List.mem_singleton, List.mem_cons]
      tauto

/-- The deduplicating accumulator preserves `Nodup`. -/
theorem add_unique_nodup :
    ∀ (ts acc : List (List Char)), acc.Nodup → (add_unique acc ts).Nodup := by
  intro ts
  induction ts with
  | nil =>
    intro acc h
    exact h
  | cons t ts ih =>
    intro acc h
    have hstep : add_unique acc (t :: ts)
        = add_unique (if t ∈ acc then acc else acc ++ [t]) ts := rfl
    rw [hstep]
    by_cases hmem : t ∈ acc
    · rw [if_pos hmem]
      exact ih acc h
    · rw [if_neg hmem]
      refine ih _ ?_
      simp [List.nodup_append, h, hmem]

/-- The accumulated set of topics has no duplicate strings. -/
theorem unique_topics_foldl_nodup :
    ∀ (files : List (List Char × Option (List Char))) (acc : List (List Char)),
      acc.Nodup → (files.foldl unique_topics_step acc).Nodup := by
  intro files
  induction files with
  | nil =>
    intro acc h
    exact h
  | cons f fs ih =>
    intro acc h
    rw [List.foldl_cons]
    refine ih _ ?_
    simp only [unique_topics_step]
    split_ifs
    · exact h
    · exact h
    · exact add_unique_nodup _ acc h

/-- A string is accumulated exactly when some non-blank file's reply
extraction contains it. -/
theorem unique_topics_foldl_mem (x : List Char) :
    ∀ (files : List (List Char × Option (List Char))) (acc : List (List Char)),
      x ∈ files.foldl unique_topics_step acc ↔
        x ∈ acc ∨ ∃ f ∈ files, (pyStrip f.1).isEmpty = false ∧
          x ∈ extract_topics_from_summary f.2 := by
  intro files
  induction files with
  | nil =>
    intro acc
    simp
  | cons f fs ih =>
    intro acc
    rw [List.foldl_cons, ih]
    simp only [unique_topics_step]
    by_cases h1 : (pyStrip f.1).isEmpty
    · rw [if_pos h1]
      simp only [List.mem_cons]
      constructor
      · rintro (h | ⟨g, hg, hgb, hgx⟩)
        · exact Or.inl h
        · exact Or.inr ⟨g, Or.inr hg, hgb, hgx⟩
      · rintro (h | ⟨g, hg | hg, hgb, hgx⟩)
        · exact Or.inl h
        · rw [hg] at hgb
          rw [h1] at hgb
          cases hgb
        · exact Or.inr ⟨g, hg, hgb, hgx⟩
    · rw [if_neg h1]
      by_cases h2 : (extract_topics_from_summary f.2).isEmpty
      · rw [if_pos h2]
        have hemp : extract_topics_from_summary f.2 = [] := by
          simpa using h2
        simp only [List.mem_cons]
        constructor
        · rintro (h | ⟨g, hg, hgb, hgx⟩)
          · exact Or.inl h
          · exact Or.inr ⟨g, Or.inr hg, hgb, hgx⟩
        · rintro (h | ⟨g, hg | hg, hgb, hgx⟩)
          · exact Or.inl h
          · rw [hg, hemp] at hgx
            cases hgx
          · exact Or.inr ⟨g, hg, hgb, hgx⟩
      · rw [if_neg h2]
        rw [add_unique_mem]
        simp only [List.mem_cons]
        constructor
        · rintro ((h | h) | ⟨g, hg, hgb, hgx⟩)
          · exact Or.inl h
          · refine Or.inr ⟨f, Or.inl rfl, ?_, h⟩
            simpa using h1
          · exact Or.inr ⟨g, Or.inr hg, hgb, hgx⟩
        · rintro (h | ⟨g, hg | hg, hgb, hgx⟩)
          · exact Or.inl (Or.inl h)
          · rw [hg] at hgx
            exact Or.inl (Or.inr hgx)
          · exact Or.inr ⟨g, hg, hgb, hgx⟩

/-- C7: the extractor writes no file exactly when no topics accumulated;
otherwise the written list is sorted in code-point order, duplicate-free,
contains exactly the topics extracted from non-blank files, and the save
format is JSON for `.json`, plain lines for `.txt`, and plain lines with
a warning otherwise. -/
theorem C7_extractor_output (files : List (List Char × Option (List Char)))
    (ext : List Char) :
    (extractMain files ext = none ↔ unique_topics files = []) ∧
    (∀ fmt l, extractMain files ext = some (fmt, l) →
      List.Pairwise lexLeP l ∧ l.Nodup ∧
      (∀ t, t ∈ l ↔ ∃ f ∈ files, (pyStrip f.1).isEmpty = false ∧
          t ∈ extract_topics_from_summary f.2) ∧
      fmt = chooseFormat ext) := by
  constructor
  · simp only [extractMain]
    by_cases hu : (unique_topics files).isEmpty
    · rw [if_pos hu]
      simp [List.isEmpty_iff.mp hu]
    · rw [if_neg hu]
      simp only [reduceCtorEq, false_iff]
      exact fun h => hu (by simp [h])
  · intro fmt l hsome
    simp only [extractMain] at hsome
    by_cases hu : (unique_topics files).isEmpty
    · rw [if_pos hu] at hsome
      exact absurd hsome (by simp)
    · rw [if_neg hu] at hsome
      have hpair := Option.some.inj hsome
      have hfmt : fmt = chooseFormat ext := (Prod.mk.injEq _ _ _ _ ▸ hpair).1.symm
      have hl : l = sorted_unique (unique_topics files) :=
        (Prod.mk.injEq _ _ _ _ ▸ hpair).2.symm
      subst hl
      haveI : IsTrans (List Char) lexLeP := ⟨fun a b c => lexLe_trans a b c⟩
      haveI : IsTotal (List Char) lexLeP :=
        ⟨fun a b => by
          have ht := lexLe_total a b
          simp only [Bool.or_eq_true] at ht
          exact ht⟩
      refine ⟨List.sorted_insertionSort lexLeP (unique_topics files), ?_, ?_, hfmt⟩
      · simp only [sorted_unique]
        exact (List.perm_insertionSort lexLeP (unique_topics files)).nodup_iff.mpr
          (unique_topics_foldl_nodup files [] List.nodup_nil)
      · intro t
        simp only [sorted_unique]
        rw [(List.perm_insertionSort lexLeP (unique_topics files)).mem_iff]
        simpa using unique_topics_foldl_mem t files []

/-- Witness for C7: one file whose reply lists `B`, `A`, `B` produces the
sorted deduplicated JSON output `A`, `B`. -/
theorem C7_extractor_output_witness :
    extractMain [((("exam summary text").toList), some (("B\nA\nB").toList))]
        ((".json").toList)
      = some (SaveFormat.jsonArray, [("A").toList, ("B").toList]) ∧
    ([("A").toList, ("B").toList] : List (List Char)).Nodup := by
  have h := (C7_extractor_output
      [((("exam summary text").toList), some (("B\nA\nB").toList))]
      ((".json").toList)).2 SaveFormat.jsonArray [("A").toList, ("B").toList]
      (by decide)
  exact ⟨by decide, h.2.1⟩

/-! ## Theorems about guide generation ordering (claim C9) -/

/-- Folding completions keeps the result array's length. -/
theorem gatherFill_foldl_length (f : Nat → α) (order : List Nat) :
    ∀ acc : List (Option α),
      (order.foldl (fun a i => a.set i (some (f i))) acc).length = acc.length := by
  induction order with
  | nil =>
    intro acc
    rfl
  | cons i rest ih =>
    intro acc
    rw [List.foldl_cons, ih, List.length_set]

/-- Each slot of the completion fold holds task `j`'s result once `j` has
completed, independently of the completion order. -/
theorem gatherFill_foldl_getElem (f : Nat → α) (order : List Nat) :
    ∀ (acc : List (Option α)) (j : Nat),
      (order.foldl (fun a i => a.set i (some (f i))) acc)[j]?
        = if j ∈ order ∧ j < acc.length then some (some (f j)) else acc[j]? := by
  induction order with
  | nil =>
    intro acc j
    simp
  | cons i rest ih =>
    intro acc j
    rw [List.foldl_cons, ih]
    by_cases hj : j ∈ rest ∧ j < acc.length
    · rw [if_pos (by simpa [List.length_set] using hj)]
      rw [if_pos ⟨List.mem_cons_of_mem _ hj.1, hj.2⟩]
    · rw [if_neg (by simpa [List.length_set] using hj)]
      by_cases hji : j = i
      · subst hji
        by_cases hlt : j < acc.length
        · rw [List.getElem?_set_self hlt]
          rw [if_pos ⟨List.mem_cons_self _ _, hlt⟩]
        · rw [if_neg (fun hk => hlt hk.2)]
          rw [List.getElem?_eq_none (by simpa [List.length_set] using Nat.le_of_not_lt hlt),
            List.getElem?_eq_none (Nat.le_of_not_lt hlt)]
      · rw [List.getElem?_set_ne (fun hk => hji hk.symm)]
        have hni : ¬(j ∈ i :: rest ∧ j < acc.length) := by
          rintro ⟨hmc, hlt⟩
          rcases List.mem_cons.mp hmc with hm | hm
          · exact hji hm
          · exact hj ⟨hm, hlt⟩
        rw [if_neg hni]

/-- Whatever order a permutation of the tasks completes in, the gathered
list is the results in task order. -/
theorem gatherResult_eq_map (dflt : α) (f : Nat → α) (n : Nat) (order : List Nat)
    (h : order.Perm (List.range n)) :
    gatherResult dflt f n order = (List.range n).map f := by
  apply List.ext_getElem?
  intro j
  simp only [gatherResult, gatherFill, List.getElem?_map]
  rw [gatherFill_foldl_getElem]
  by_cases hj : j < n
  · rw [if_pos ⟨h.mem_iff.mpr (List.mem_range.mpr hj), by simpa using hj⟩]
    simp [List.getElem?_range hj]
  · rw [if_neg (by simp [hj])]
    rw [List.getElem?_eq_none (by simpa using Nat.le_of_not_lt hj),
      List.getElem?_eq_none (by simpa using Nat.le_of_not_lt hj)]
    rfl

/-- A list mapped through `g` equals the range-indexed map via `getD`. -/
theorem map_eq_range_map_getD (l : List β) (g : β → α) (d : β) :
    (List.range l.length).map (fun i => g (l.getD i d)) = l.map g := by
  apply List.ext_getElem?
  intro j
  by_cases hj : j < l.length
  · rw [List.getElem?_map, List.getElem?_map]
    rw [List.getElem?_range hj, List.getElem?_eq_getElem hj]
    simp [List.getD, List.getElem?_eq_getElem hj]
  · rw [List.getElem?_eq_none (by simpa using Nat.le_of_not_lt hj),
      List.getElem?_eq_none (by simpa using Nat.le_of_not_lt hj)]

/-- C9: for an input topic list the guide produces exactly one section
per topic, in input order, regardless of the completion order of the
generation tasks; a topic whose embedding failed occupies its position
with the error placeholder. -/
theorem C9_section_order (embedFn : List Char → Option Embedding)
    (queryFn : Embedding → Option QueryResults)
    (fmtBody : QueryResults → List Char)
    (genFn : List Char → List Char)
    (topics : List (List Char)) (order : List Nat)
    (h : order.Perm (List.range topics.length)) :
    gatherResult []
        (fun i => sectionFor genFn
          ((topics.map (topic_data_entry embedFn queryFn fmtBody)).getD i ([], none)))
        topics.length order
      = (topics.map (topic_data_entry embedFn queryFn fmtBody)).map (sectionFor genFn) ∧
    ((topics.map (topic_data_entry embedFn queryFn fmtBody)).map (sectionFor genFn)).length
      = topics.length ∧
    ∀ i (hi : i < topics.length), embedFn (topics.get ⟨i, hi⟩) = none →
      ((topics.map (topic_data_entry embedFn queryFn fmtBody)).map (sectionFor genFn)).getD i []
        = error_section (topics.get ⟨i, hi⟩) := by
  refine ⟨?_, by simp, ?_⟩
  · rw [gatherResult_eq_map [] _ topics.length order
        (by simpa using h)]
    have hlen : topics.length = (topics.map (topic_data_entry embedFn queryFn fmtBody)).length := by
      simp
    rw [hlen]
    exact map_eq_range_map_getD (topics.map (topic_data_entry embedFn queryFn fmtBody))
      (sectionFor genFn) ([], none)
  · intro i hi hfail
    have hi2 : i < ((topics.map (topic_data_entry embedFn queryFn fmtBody)).map (sectionFor genFn)).length := by
      simpa using hi
    rw [List.getD_eq_getElem _ _ hi2]
    simp only [List.getElem_map]
    simp only [List.get_eq_getElem] at hfail ⊢
    simp [topic_data_entry, embed_query_async, hfail, sectionFor]

/-- Witness for C9: three topics, the first failing to embed, completed
in the order 3rd, 1st, 2nd, still produce sections in input order with
the error placeholder in position 1. -/
theorem C9_section_order_witness :
    gatherResult []
        (fun i => sectionFor (fun p => p)
          (([("t1").toList, ("t2").toList, ("t3").toList].map
              (topic_data_entry
                (fun t => if t = ("t1").toList then none else some [0])
                (fun _ => none) (fun _ => []))).getD i ([], none)))
        3 [2, 0, 1]
      = ([("t1").toList, ("t2").toList, ("t3").toList].map
          (topic_data_entry
            (fun t => if t = ("t1").toList then none else some [0])
            (fun _ => none) (fun _ => []))).map (sectionFor (fun p => p)) ∧
    (([("t1").toList, ("t2").toList, ("t3").toList].map
        (topic_data_entry
          (fun t => if t = ("t1").toList then none else some [0])
          (fun _ => none) (fun _ => []))).map (sectionFor (fun p => p))).getD 0 []
      = error_section (("t1").toList) := by
  have h := C9_section_order
      (fun t => if t = ("t1").toList then none else some [0])
      (fun _ => none) (fun _ => []) (fun p => p)
      [("t1").toList, ("t2").toList, ("t3").toList] [2, 0, 1] (by decide)
  refine ⟨h.1, ?_⟩
  have h3 := h.2.2 0 (by decide) (by decide)
  simpa using h3
